/-
  Verification of the libnl Python port's core: the generic-netlink family
  descriptor (src/libnl/genl/family.py) and the binary struct / pointer
  emulation layer (src/libnl/misc.py).

  Shallow embedding conventions:
  * Python `bytearray` values are `List Nat` (each element one byte 0..255;
    byte-ness is irrelevant to the claims, which quantify over contents).
  * Python exceptions are an explicit `PyErr` value: functions that can raise
    return `Except PyErr _`, or a pair `(Option PyErr) × state` when the claim
    also speaks about the state left behind at raise time.
  * Python's `dict` (used with small, insertion-ordered key sets) is an
    association list; lookup takes the first matching key, and insertion of a
    fresh key is cons.
  * Machine integers are `Nat` with explicit `% 2^w` / per-byte `/ %` where the
    source goes through `ctypes` fixed-width types.
  * The platform is the 64-bit little-endian one the library targets:
    `SIZEOF_POINTER = 8`, `SIZEOF_U32 = 4`.
-/
import Mathlib

namespace Libnl

/-- Python exception kinds raised by the modelled code. `typeError` covers both
the `bytearray_ptr` length-mismatch `TypeError` and the item-deletion
`TypeError`; `indexError` the out-of-range `IndexError`; `runtimeError` the
"Bug found" `RuntimeError`; `notImplementedError` the `NotImplementedError`
stubs of family.py. -/
inductive PyErr where
  | typeError
  | indexError
  | runtimeError
  | notImplementedError
  deriving DecidableEq, Repr

/-! ### Python sequence-slicing primitives

Python slice semantics on a list: an index is clamped to `[0, len]`, a negative
index counts from the end (and is then clamped below by 0). -/

/-- Normalise one Python slice bound `i` against a sequence of length `len`:
negative bounds count from the end, then the result is clamped to `[0, len]`. -/
def pyIdx (len : Nat) (i : Int) : Nat :=
  if i < 0 then ((len : Int) + i).toNat else min i.toNat len

/-- Python `l[a:b]` for a list (slice read). -/
def pyGetSlice {α : Type} (l : List α) (a b : Int) : List α :=
  (l.take (pyIdx l.length b)).drop (pyIdx l.length a)

/-- Python `l[a:b] = v` slice assignment on a plain mutable sequence
(`bytearray` / `list`): the targeted range is replaced by `v`, resizing the
sequence when the lengths differ; when the normalised start exceeds the
normalised stop, `v` is inserted at the start position. -/
def pySetSlice {α : Type} (l : List α) (a b : Int) (v : List α) : List α :=
  l.take (pyIdx l.length a) ++ v ++
    l.drop (max (pyIdx l.length a) (pyIdx l.length b))

/-- Python `l[i] = x` integer-index assignment: negative `i` counts from the
end; out of range raises `IndexError`. -/
def pySetIdx {α : Type} (l : List α) (i : Int) (x : α) : Except PyErr (List α) :=
  let i' : Int := if i < 0 then i + l.length else i
  if 0 ≤ i' ∧ i' < l.length then .ok (l.set i'.toNat x) else .error .indexError

/-! ### Generic netlink family (src/libnl/genl/family.py)

The `genl_family` record and `nl_object_alloc` live in modules of this
repository that are not under src/ (`libnl.netlink_private.types`,
`libnl.object`, `libnl.linux_private.genetlink`); they are modelled from the
spec where noted. The functions below them are translated from
src/libnl/genl/family.py. -/

def FAMILY_ATTR_ID : Nat := 0x01
def FAMILY_ATTR_NAME : Nat := 0x02
def FAMILY_ATTR_VERSION : Nat := 0x04
def FAMILY_ATTR_HDRSIZE : Nat := 0x08
def FAMILY_ATTR_MAXATTR : Nat := 0x10
def FAMILY_ATTR_OPS : Nat := 0x20

/-- Modelled from the spec: `GENL_ID_GENERATE`, imported by family.py from
`libnl.linux_private.genetlink`, which is not under src/. The spec calls it the
"well-known sentinel constant meaning request the kernel to generate a numeric
identifier", and notes it may be "defined as zero"; in libnl 3.2.25's
genetlink.h it is 0. -/
def GENL_ID_GENERATE : Nat := 0

/-- Modelled from the spec: one multicast group of a family, an
"id (u32) + name (string) pair" (`genl_family_grp` from
`libnl.netlink_private.types`, not under src/). -/
structure GenlFamilyGrp where
  id_ : Nat
  name : String
  deriving DecidableEq, Repr

/-- Modelled from the spec: the `genl_family` attribute-tracked object
(`libnl.netlink_private.types`, not under src/): a presence bitmask `ce_mask`
plus the fields the claims touch — numeric id `gf_id`, name `gf_name`, and the
multicast-group collection `gf_mc_grps`. -/
structure GenlFamily where
  ce_mask : Nat
  gf_id : Nat
  gf_name : String
  gf_mc_grps : List GenlFamilyGrp
  deriving DecidableEq, Repr

/-- Modelled from the spec: `genl_family_alloc` goes through `nl_object_alloc`
(`libnl.object`, not under src/), which per the spec's allocator boundary
produces a zero-initialised object: presence mask 0, fields zeroed/empty. -/
def genl_family_alloc : GenlFamily :=
  { ce_mask := 0, gf_id := 0, gf_name := "", gf_mc_grps := [] }

/-- family.py `genl_family_get_id`:
`int(family.gf_id if family.ce_mask & FAMILY_ATTR_ID else GENL_ID_GENERATE)`.
A Python `and`-mask is truthy iff nonzero. -/
def genl_family_get_id (family : GenlFamily) : Nat :=
  if family.ce_mask &&& FAMILY_ATTR_ID ≠ 0 then family.gf_id else GENL_ID_GENERATE

/-- family.py `genl_family_set_id`: stores the id and ors the ID bit into the
mask. -/
def genl_family_set_id (family : GenlFamily) (id_ : Nat) : GenlFamily :=
  { family with gf_id := id_, ce_mask := family.ce_mask ||| FAMILY_ATTR_ID }

/-- family.py `genl_family_set_name`: stores the name and ors the NAME bit into
the mask. -/
def genl_family_set_name (family : GenlFamily) (name : String) : GenlFamily :=
  { family with gf_name := name, ce_mask := family.ce_mask ||| FAMILY_ATTR_NAME }

/-- family.py `genl_family_add_grp`: the body binds
`grp = genl_family_grp(id_=id, name=name)` (passing the *builtin* `id`, not the
`id_` parameter) and then unconditionally raises `NotImplementedError`; no
group is appended, no mask bit set, nothing returned. -/
def genl_family_add_grp (_family : GenlFamily) (_id : Nat) (_name : String) :
    Except PyErr (GenlFamily × Nat) :=
  .error .notImplementedError

/-! ### bytearray_ptr — the bounded view (src/libnl/misc.py) -/

/-- misc.py `bytearray_ptr`: a pseudo-bytearray referencing a slice
`[sliceStart, sliceStop)` of an actual bytearray `pointee`. The slice bounds
are stored exactly as the constructor computed them (they are Python ints, so
`Int` here). -/
structure ByteArrayPtr where
  pointee : List Nat
  sliceStart : Int
  sliceStop : Int
  deriving DecidableEq, Repr

/-- misc.py `bytearray_ptr.__init__`: `start = start or 0`;
`stop = stop or (start if stop == 0 else len(pointee))`; each bound, if
negative, gets `len(pointee)` added once; the resulting slice is stored. -/
def bytearray_ptr (pointee : List Nat) (start? stop? : Option Int) : ByteArrayPtr :=
  let start : Int := match start? with
    | none => 0
    | some s => if s = 0 then 0 else s
  let stop : Int := match stop? with
    | none => pointee.length
    | some s => if s = 0 then start else s
  let start := if start < 0 then start + pointee.length else start
  let stop := if stop < 0 then stop + pointee.length else stop
  { pointee := pointee, sliceStart := start, sliceStop := stop }

/-- misc.py `bytearray_ptr.__len__`: `len(self.pointee[self.slice])`. -/
def ByteArrayPtr.pyLen (p : ByteArrayPtr) : Nat :=
  (pyGetSlice p.pointee p.sliceStart p.sliceStop).length

/-- A key passed to `__setitem__` / `__delitem__`: either an integer index or a
slice with optional bounds (step slices are never used by the library). -/
inductive BKey where
  | idx (i : Int)
  | slc (start? stop? : Option Int)
  deriving DecidableEq, Repr

/-- A value passed to `__setitem__`: an int for an integer key, a byte sequence
for a slice key. -/
inductive BVal where
  | byte (b : Nat)
  | seq (v : List Nat)
  deriving DecidableEq, Repr

/-- The single negative-index adjustment `__setitem__` applies to a slice
bound: `if x < 0: x += len(self)`. -/
def pyNormIdx (selfLen : Nat) (i : Int) : Int :=
  if i < 0 then i + selfLen else i

/-- The slice-normalisation block of misc.py `bytearray_ptr.__setitem__`:
`start = key.start or 0`, negative start shifted by `len(self)`, IndexError
when `start >= len(self)`; `stop = key.stop or (start if key.stop == 0 else
len(self))`, negative stop shifted; both offsets shifted by `self.slice.start`
and the stop clamped to `self.slice.stop`. Returns the parent-buffer range the
write targets. -/
def ByteArrayPtr.setitemRange (p : ByteArrayPtr) (start? stop? : Option Int) :
    Except PyErr (Int × Int) :=
  let start := pyNormIdx p.pyLen
    (match start? with
     | none => 0
     | some s => if s = 0 then 0 else s)
  if start ≥ (p.pyLen : Int) then .error .indexError
  else
    let stop := pyNormIdx p.pyLen
      (match stop? with
       | none => (p.pyLen : Int)
       | some s => if s = 0 then start else s)
    .ok (start + p.sliceStart, min (stop + p.sliceStart) p.sliceStop)

/-- misc.py `bytearray_ptr.__setitem__`. An integer key is first normalised
against `len(self)` and converted to the slice `[key, key+1)` (and the
length-mismatch check is skipped for it); a slice key whose targeted parent
range differs in length from the value raises `TypeError` before any mutation;
otherwise the parent is mutated in place, and a final guard raises
`RuntimeError` if the parent's length changed. Result: the exception raised (if
any) paired with the parent buffer's contents at that moment. -/
def ByteArrayPtr.setitem (p : ByteArrayPtr) (key : BKey) (value : BVal) :
    Option PyErr × List Nat :=
  match key, value with
  | .slc start? stop?, .seq v =>
    match p.setitemRange start? stop? with
    | .error e => (some e, p.pointee)
    | .ok (start, stop) =>
      if (pyGetSlice p.pointee start stop).length ≠ v.length then
        (some .typeError, p.pointee)
      else
        let newP := pySetSlice p.pointee start stop v
        if newP.length ≠ p.pointee.length then (some .runtimeError, newP)
        else (none, newP)
  | .idx i, .byte b =>
    let i' : Int := if i < 0 then i + (p.pyLen : Int) else i
    match p.setitemRange (some i') (some (i' + 1)) with
    | .error e => (some e, p.pointee)
    | .ok (start, _stop) =>
      match pySetIdx p.pointee start b with
      | .error e => (some e, p.pointee)
      | .ok newP =>
        if newP.length ≠ p.pointee.length then (some .runtimeError, newP)
        else (none, newP)
  | _, _ => (some .typeError, p.pointee)

/-- misc.py `bytearray_ptr.__delitem__`: raises `TypeError` unconditionally,
touching nothing. -/
def ByteArrayPtr.delitem (p : ByteArrayPtr) (_key : BKey) : Option PyErr × List Nat :=
  (some .typeError, p.pointee)

/-! ### StructNoPointers and ucred (src/libnl/misc.py) -/

def SIZEOF_U32 : Nat := 4

/-- misc.py `_StructBase._get_slicers`: index 0 yields `slice(0, SIGNATURE[0])`
(an `IndexError` surfaces from the subscript when the signature is empty);
an index `>= len(SIGNATURE)` raises `IndexError`; otherwise the slice
`[sum(SIGNATURE[:index]), sum(SIGNATURE[:index]) + SIGNATURE[index])`. -/
def get_slicers (signature : List Nat) (index : Nat) : Except PyErr (Int × Int) :=
  if index = 0 then
    match signature with
    | [] => .error .indexError
    | w :: _ => .ok (0, w)
  else if index ≥ signature.length then .error .indexError
  else
    let padStart := (signature.take index).sum
    .ok (padStart, padStart + signature.getD index 0)

/-- A field write on a `StructNoPointers` whose `bytearray` is a plain Python
`bytearray`: `self.bytearray[self._get_slicers(index)] = value`. Plain
bytearray slice assignment resizes on length mismatch (see `pySetSlice`). -/
def StructNoPointers.writeField (signature : List Nat) (ba : List Nat)
    (index : Nat) (value : List Nat) : Except PyErr (List Nat) :=
  match get_slicers signature index with
  | .error e => .error e
  | .ok (a, b) => .ok (pySetSlice ba a b value)

/-- A field write on a `StructNoPointers` whose `bytearray` is a
`bytearray_ptr` bounded view: the same statement
`self.bytearray[self._get_slicers(index)] = value` now dispatches to
`bytearray_ptr.__setitem__`, which enforces the length. -/
def StructNoPointers.writeFieldPtr (signature : List Nat) (p : ByteArrayPtr)
    (index : Nat) (value : List Nat) : Option PyErr × List Nat :=
  match get_slicers signature index with
  | .error e => (some e, p.pointee)
  | .ok (a, b) => p.setitem (.slc (some a) (some b)) (.seq value)

/-- Little-endian bytes of `ctypes.c_int32(v)` / `ctypes.c_uint32(v)` (both
wrap to the same four bytes, `v % 2^32` little-endian). -/
def u32le (v : Nat) : List Nat :=
  [v % 256, v / 256 % 256, v / 65536 % 256, v / 16777216 % 256]

/-- `ctypes.c_uint32.from_buffer(bs).value`: little-endian decode. -/
def u32dec (bs : List Nat) : Nat :=
  bs.foldr (fun b acc => b + 256 * acc) 0

namespace ucred

/-- misc.py `ucred.SIGNATURE = (SIZEOF_U32, SIZEOF_U32, SIZEOF_U32)`. -/
def SIGNATURE : List Nat := [SIZEOF_U32, SIZEOF_U32, SIZEOF_U32]

/-- misc.py `ucred.SIZEOF = sum(SIGNATURE)`. -/
def SIZEOF : Nat := SIGNATURE.sum

/-- A `ucred` field setter, e.g. `self.bytearray[self._get_slicers(0)] =
bytearray(ctypes.c_int32(value or 0))`: writes the 4 little-endian bytes of the
value into field `index`'s slice of the backing buffer (for a `Nat` value,
`value or 0` is `value`). The slicer call never fails for `index < 3`. -/
def set_field (ba : List Nat) (index : Nat) (value : Nat) : List Nat :=
  match get_slicers SIGNATURE index with
  | .error _ => ba
  | .ok (a, b) => pySetSlice ba a b (u32le value)

/-- A `ucred` field getter, e.g.
`ctypes.c_uint32.from_buffer(self.bytearray[self._get_slicers(0)]).value`. -/
def get_field (ba : List Nat) (index : Nat) : Nat :=
  match get_slicers SIGNATURE index with
  | .error _ => 0
  | .ok (a, b) => u32dec (pyGetSlice ba a b)

/-- misc.py `ucred.__init__(pid=0, uid=0, gid=0)`: a `SIZEOF`-byte zero buffer,
then the three setters run in pid, uid, gid order. -/
def init (pid uid gid : Nat) : List Nat :=
  set_field (set_field (set_field (List.replicate SIZEOF 0) 0 pid) 1 uid) 2 gid

def pid (ba : List Nat) : Nat := get_field ba 0
def uid (ba : List Nat) : Nat := get_field ba 1
def gid (ba : List Nat) : Nat := get_field ba 2

end ucred

/-! ### StructWithPointers (src/libnl/misc.py)

`self.pointers` is a Python dict keyed by pointer-token byte sequences; it is
modelled as an association list with unique keys (callers register each token
at most once). -/

/-- `ctypes.sizeof(ctypes.c_void_p)` on the modelled 64-bit platform. -/
def SIZEOF_POINTER : Nat := 8

/-- Little-endian bytes of `ctypes.c_uint64(v)` (wraps modulo `2^64`). -/
def u64le (v : Nat) : List Nat :=
  [v % 256, v / 2 ^ 8 % 256, v / 2 ^ 16 % 256, v / 2 ^ 24 % 256,
   v / 2 ^ 32 % 256, v / 2 ^ 40 % 256, v / 2 ^ 48 % 256, v / 2 ^ 56 % 256]

/-- Python dict membership `k in d` for the pointer side table. CPython's
`dict.__contains__` calls `hash(k)` before consulting the table — even when
the dict is empty — and `bytearray` defines no `__hash__`, so membership with
a bytearray key always raises `TypeError: unhashable type: 'bytearray'`; the
table contents never matter. -/
def dictContains (_d : List (List Nat × List Nat)) (_k : List Nat) :
    Except PyErr Bool :=
  .error .typeError

/-- Python dict subscript `d[k]` for the pointer side table: like membership,
it hashes the bytearray key first and always raises `TypeError`. (For the same
reason `d[k] = v` can never register a bytearray token, so non-empty table
states are unreachable in the program; the model still carries the field for
the structure's shape and quantifies over it.) -/
def dictLookup (_d : List (List Nat × List Nat)) (_k : List Nat) :
    Except PyErr (List Nat) :=
  .error .typeError

/-- misc.py `StructWithPointers`: `bytearrays`, a list of byte-buffer slots,
and `pointers`, the token → payload side table. -/
structure StructWithPointers where
  bytearrays : List (List Nat)
  pointers : List (List Nat × List Nat)
  deriving DecidableEq, Repr

/-- misc.py `StructWithPointers.__init__(var_count)`: `var_count` empty slots
and an empty side table. -/
def StructWithPointers.init (var_count : Nat) : StructWithPointers :=
  { bytearrays := List.replicate var_count [], pointers := [] }

/-- A Python object whose truthiness the modelled code takes. Only the variants
the code builds are included; a generator object records the elements it would
yield, but `bool()` of a generator never consumes it. -/
inductive PyObj where
  | generator (pending : List Nat)

/-- Python `bool(obj)`: a generator object is always truthy, regardless of what
it would yield. -/
def pyTruthy : PyObj → Bool
  | .generator _ => true

/-- The elements the generator expression in `StructWithPointers.__bool__`
(`c for a in self.bytearrays if a for c in a if c`) would yield: the nonzero
bytes of the nonempty slots. -/
def StructWithPointers.boolGenElems (s : StructWithPointers) : List Nat :=
  ((s.bytearrays.filter (fun a => !a.isEmpty)).map (fun a => a.filter (fun c => c ≠ 0))).flatten

/-- misc.py `StructWithPointers.__bool__`:
`return not not (c for a in self.bytearrays if a for c in a if c)` — the double
negation of the truthiness of the generator object itself (the generator is
never iterated). -/
def StructWithPointers.bool (s : StructWithPointers) : Bool :=
  !(!(pyTruthy (.generator s.boolGenElems)))

/-- The loop body of misc.py `StructWithPointers.bytearray`: for each slot,
`if array in self.pointers: resolved.extend(self.pointers[array]) else:
resolved.extend(array)`. The membership test hashes the bytearray slot and
raises (see `dictContains`), which aborts the property with that exception at
the first slot. -/
def resolvePointers (pointers : List (List Nat × List Nat)) :
    List (List Nat) → List Nat → Except PyErr (List Nat)
  | [], resolved => .ok resolved
  | array :: rest, resolved =>
    match dictContains pointers array with
    | .error e => .error e
    | .ok true =>
      match dictLookup pointers array with
      | .error e => .error e
      | .ok payload => resolvePointers pointers rest (resolved ++ payload)
    | .ok false => resolvePointers pointers rest (resolved ++ array)

/-- misc.py `StructWithPointers.bytearray` (the resolving property): runs the
loop above over the slots starting from an empty `resolved` accumulator. With
at least one slot it raises `TypeError` at the first membership test; only the
degenerate zero-slot instance completes, with an empty result. -/
def StructWithPointers.bytearray (s : StructWithPointers) : Except PyErr (List Nat) :=
  resolvePointers s.pointers s.bytearrays []

/-- misc.py `StructWithPointers.new_pointer`: each `while True` iteration draws
`candidate_int = random.randint(1, 2 ** (8 * SIZEOF_POINTER))` (the random
stream made explicit as the list `draws`), encodes it as
`bytearray(bytes(ctypes.c_uint64(candidate_int)))[:SIZEOF_POINTER]`, and then
evaluates `candidate_ba not in self.pointers` — which hashes the bytearray
candidate and raises `TypeError` (see `dictContains`), so the first iteration
of every call aborts. `none` is the model artifact of an exhausted finite draw
stream; a call with at least one draw available never reaches it. -/
def StructWithPointers.new_pointer (s : StructWithPointers) :
    List Nat → Option (Except PyErr (List Nat × List Nat))
  | [] => none
  | d :: rest =>
    let candidate_ba := (u64le d).take SIZEOF_POINTER
    match dictContains s.pointers candidate_ba with
    | .error e => some (.error e)
    | .ok true => s.new_pointer rest
    | .ok false => some (.ok (candidate_ba, rest))

/-! ## Theorems -/

/-! Helper lemmas about the Python slicing primitives. -/

/-- `pyIdx` on a nonnegative bound is plain clamping. -/
theorem pyIdx_eq (len : Nat) (i : Int) (h : 0 ≤ i) : pyIdx len i = min i.toNat len := by
  unfold pyIdx
  rw [if_neg (by omega)]

/-- `pyGetSlice` with nonnegative bounds is take-then-drop. -/
theorem pyGetSlice_eq {α : Type} (l : List α) (a b : Int) (ha : 0 ≤ a) (hb : 0 ≤ b) :
    pyGetSlice l a b = (l.take b.toNat).drop a.toNat := by
  unfold pyGetSlice
  rw [pyIdx_eq _ _ ha, pyIdx_eq _ _ hb]
  have h1 : l.take (min b.toNat l.length) = l.take b.toNat := by
    rcases le_total b.toNat l.length with h | h
    · rw [min_eq_left h]
    · rw [min_eq_right h, List.take_length, List.take_of_length_le h]
  rw [h1]
  rcases le_total a.toNat l.length with h | h
  · rw [min_eq_left h]
  · rw [min_eq_right h,
      List.drop_eq_nil_of_le (by simp only [List.length_take]; omega),
      List.drop_eq_nil_of_le (by simp only [List.length_take]; omega)]

/-- `pySetSlice` with in-range ordered bounds is splice-replacement. -/
theorem pySetSlice_eq {α : Type} (l : List α) (a b : Int) (v : List α)
    (ha : 0 ≤ a) (hab : a ≤ b) (hb : b ≤ (l.length : Int)) :
    pySetSlice l a b v = l.take a.toNat ++ v ++ l.drop b.toNat := by
  unfold pySetSlice
  rw [pyIdx_eq _ _ ha, pyIdx_eq _ _ (ha.trans hab)]
  have h1 : min a.toNat l.length = a.toNat := by omega
  have h2 : min b.toNat l.length = b.toNat := by omega
  rw [h1, h2, max_eq_right (show a.toNat ≤ b.toNat by omega)]

/-- Bit `b ≠ 0` of the number 1 (= `2^0`) is clear. -/
theorem testBit_one_of_ne (b : Nat) (hb : b ≠ 0) : Nat.testBit 1 b = false := by
  have h : (2 ^ 0 : Nat).testBit b = false := Nat.testBit_two_pow_of_ne (Ne.symm hb)
  simpa using h

/-- Bit `b ≠ 1` of the number 2 (= `2^1`) is clear. -/
theorem testBit_two_of_ne (b : Nat) (hb : b ≠ 1) : Nat.testBit 2 b = false := by
  have h : (2 ^ 1 : Nat).testBit b = false := Nat.testBit_two_pow_of_ne (Ne.symm hb)
  simpa using h

/-- C1: `genl_family_get_id` returns the stored `gf_id` when the ID presence
bit (0x01, i.e. bit 0) is set in `ce_mask`, and otherwise the
`GENL_ID_GENERATE` sentinel; in particular a freshly allocated descriptor,
whose mask is zero, yields the sentinel. -/
theorem genl_family_get_id_spec :
    (∀ family : GenlFamily, family.ce_mask.testBit 0 = true →
        genl_family_get_id family = family.gf_id)
  ∧ (∀ family : GenlFamily, family.ce_mask.testBit 0 = false →
        genl_family_get_id family = GENL_ID_GENERATE)
  ∧ genl_family_get_id genl_family_alloc = GENL_ID_GENERATE := by
  refine ⟨fun family h => ?_, fun family h => ?_, rfl⟩
  · have hm : family.ce_mask % 2 = 1 := by
      have := Nat.testBit_zero family.ce_mask
      rw [h] at this
      exact of_decide_eq_true this.symm
    have hand : family.ce_mask &&& 1 = family.ce_mask % 2 := Nat.and_one_is_mod _
    simp only [genl_family_get_id, FAMILY_ATTR_ID]
    rw [if_pos]
    omega
  · have hm : family.ce_mask % 2 ≠ 1 := by
      have := Nat.testBit_zero family.ce_mask
      rw [h] at this
      exact of_decide_eq_false this.symm
    have hand : family.ce_mask &&& 1 = family.ce_mask % 2 := Nat.and_one_is_mod _
    simp only [genl_family_get_id, FAMILY_ATTR_ID]
    rw [if_neg]
    omega

/-- Witness for C1 at concrete descriptors: with the ID bit set the stored id
7 comes back; with a zero mask the sentinel comes back. -/
theorem genl_family_get_id_spec_witness :
    genl_family_get_id ⟨1, 7, "x", []⟩ = 7
  ∧ genl_family_get_id ⟨0, 7, "x", []⟩ = GENL_ID_GENERATE :=
  ⟨genl_family_get_id_spec.1 ⟨1, 7, "x", []⟩ (by decide),
   genl_family_get_id_spec.2.1 ⟨0, 7, "x", []⟩ (by decide)⟩

/-- C2: `genl_family_set_id` stores the id and sets presence bit 0 (0x01);
`genl_family_set_name` stores the name and sets presence bit 1 (0x02); in each
case every other presence bit and the other fields are unchanged. Both setters
are total functions of the descriptor — they have no failure path. -/
theorem genl_family_setters_spec (family : GenlFamily) (v : Nat) (name : String) :
    (genl_family_set_id family v).gf_id = v
  ∧ (genl_family_set_id family v).ce_mask.testBit 0 = true
  ∧ (∀ b : Nat, b ≠ 0 →
      (genl_family_set_id family v).ce_mask.testBit b = family.ce_mask.testBit b)
  ∧ (genl_family_set_id family v).gf_name = family.gf_name
  ∧ (genl_family_set_id family v).gf_mc_grps = family.gf_mc_grps
  ∧ (genl_family_set_name family name).gf_name = name
  ∧ (genl_family_set_name family name).ce_mask.testBit 1 = true
  ∧ (∀ b : Nat, b ≠ 1 →
      (genl_family_set_name family name).ce_mask.testBit b = family.ce_mask.testBit b)
  ∧ (genl_family_set_name family name).gf_id = family.gf_id
  ∧ (genl_family_set_name family name).gf_mc_grps = family.gf_mc_grps := by
  refine ⟨rfl, ?_, fun b hb => ?_, rfl, rfl, rfl, ?_, fun b hb => ?_, rfl, rfl⟩
  · simp [genl_family_set_id, FAMILY_ATTR_ID, Nat.testBit_or]
  · simp [genl_family_set_id, FAMILY_ATTR_ID, Nat.testBit_or,
      testBit_one_of_ne b hb]
  · simp only [genl_family_set_name, FAMILY_ATTR_NAME, Nat.testBit_or]
    exact Bool.or_eq_true_iff.mpr (Or.inr (by decide))
  · simp [genl_family_set_name, FAMILY_ATTR_NAME, Nat.testBit_or,
      testBit_two_of_ne b hb]

/-- Witness for C2 at a concrete descriptor: setting id 5 on a fresh descriptor
stores 5, sets bit 0, and leaves bit 3 (and the name) unchanged. -/
theorem genl_family_setters_spec_witness :
    (genl_family_set_id ⟨0, 0, "", []⟩ 5).gf_id = 5
  ∧ (genl_family_set_id ⟨0, 0, "", []⟩ 5).ce_mask.testBit 0 = true
  ∧ (genl_family_set_id ⟨0, 0, "", []⟩ 5).ce_mask.testBit 3 =
      (GenlFamily.mk 0 0 "" []).ce_mask.testBit 3
  ∧ (genl_family_set_name ⟨0, 0, "", []⟩ "abc").ce_mask.testBit 3 =
      (GenlFamily.mk 0 0 "" []).ce_mask.testBit 3 := by
  have h := genl_family_setters_spec ⟨0, 0, "", []⟩ 5 "abc"
  exact ⟨h.1, h.2.1, h.2.2.1 3 (by decide), h.2.2.2.2.2.2.2.1 3 (by decide)⟩

/-- C3 (code bug): `genl_family_add_grp` as written raises
`NotImplementedError` unconditionally — it never appends a group, never sets a
presence bit, and never returns 0, contradicting its own docstring
("Returns: 0"). Evaluated here at a fresh descriptor with id 1, name "foo". -/
theorem genl_family_add_grp_raises :
    genl_family_add_grp genl_family_alloc 1 "foo" = .error .notImplementedError :=
  rfl

/-- C10: `StructWithPointers.__bool__` evaluates `not not <generator>`, the
truthiness of the generator object itself, which is always truthy — so it
returns `True` for every instance, including one whose slots are all empty
(`init`) and one whose single slot holds only zero bytes. -/
theorem struct_with_pointers_bool_always_true :
    (∀ s : StructWithPointers, s.bool = true)
  ∧ StructWithPointers.bool (StructWithPointers.init 3) = true
  ∧ StructWithPointers.bool ⟨[List.replicate 5 0], []⟩ = true :=
  ⟨fun _ => rfl, rfl, rfl⟩

/-- C6 (code bug): resolving a `StructWithPointers` never returns the claimed
substituted concatenation — with at least one slot, the loop's membership test
`array in self.pointers` hashes a bytearray (dict keys are hashed before the
table is consulted, even when it is empty) and raises
`TypeError: unhashable type: 'bytearray'`, as here on a single raw slot
`[1, 2]` with an empty side table; only the degenerate zero-slot instance
completes, with an empty result, and a bytearray token can never even be
registered as a key. -/
theorem struct_with_pointers_bytearray_raises :
    (∀ (pointers : List (List Nat × List Nat)) (slot : List Nat)
        (rest : List (List Nat)),
      StructWithPointers.bytearray ⟨slot :: rest, pointers⟩ = .error .typeError)
  ∧ StructWithPointers.bytearray ⟨[[1, 2]], []⟩ = .error .typeError
  ∧ StructWithPointers.bytearray (StructWithPointers.init 0) = .ok [] :=
  ⟨fun _ _ _ => rfl, rfl, rfl⟩

/-- Helper: when the slice bounds resolve to a range whose parent slice length
differs from the replacement's, `__setitem__` raises `TypeError` before any
mutation. -/
theorem setitem_slc_typeError (p : ByteArrayPtr) (start? stop? : Option Int)
    (v : List Nat) (a b : Int)
    (hr : p.setitemRange start? stop? = .ok (a, b))
    (hm : (pyGetSlice p.pointee a b).length ≠ v.length) :
    p.setitem (.slc start? stop?) (.seq v) = (some .typeError, p.pointee) := by
  simp [ByteArrayPtr.setitem, hr, hm]

/-- C4: through a `bytearray_ptr` view, a sub-range write whose replacement
length differs from the targeted parent range's length raises the
length-mismatch `TypeError` with the parent untouched, and item deletion raises
`TypeError` unconditionally with the parent untouched. -/
theorem bytearray_ptr_reject_spec :
    (∀ (p : ByteArrayPtr) (start? stop? : Option Int) (v : List Nat) (a b : Int),
        p.setitemRange start? stop? = .ok (a, b) →
        (pyGetSlice p.pointee a b).length ≠ v.length →
        p.setitem (.slc start? stop?) (.seq v) = (some .typeError, p.pointee))
  ∧ (∀ (p : ByteArrayPtr) (key : BKey),
        p.delitem key = (some .typeError, p.pointee)) :=
  ⟨fun p start? stop? v a b hr hm => setitem_slc_typeError p start? stop? v a b hr hm,
   fun _ _ => rfl⟩

/-- Witness for C4: on a view `[2,5)` over a 10-byte buffer, writing an empty
replacement over the full (3-byte) range raises `TypeError` and leaves the
buffer as it was, and deleting an item raises `TypeError` likewise. -/
theorem bytearray_ptr_reject_spec_witness :
    (bytearray_ptr (List.replicate 10 0) (some 2) (some 5)).setitem
        (.slc none none) (.seq []) = (some PyErr.typeError, List.replicate 10 0)
  ∧ (bytearray_ptr (List.replicate 10 0) (some 2) (some 5)).delitem (.idx 0) =
      (some PyErr.typeError, List.replicate 10 0) :=
  ⟨bytearray_ptr_reject_spec.1 _ none none [] 2 5 rfl (by decide),
   bytearray_ptr_reject_spec.2 _ (.idx 0)⟩

/-- C5 counterexample: the claim quantifies over every view with fixed
`start`/`stop`; for the empty view `[2,2)` over a 10-byte buffer the
replacement of length `stop - start = 0` does not make the full-range write
succeed — `__setitem__` raises `IndexError` (its `start >= len(self)` guard
fires on the zero-length view) and the parent is untouched. -/
theorem bytearray_ptr_full_write_empty_view_fails :
    (bytearray_ptr (List.replicate 10 0) (some 2) (some 2)).setitem
        (.slc none none) (.seq []) =
      (some PyErr.indexError, List.replicate 10 0) := by
  decide

/-- C5 (amended: the view must be nonempty, `start < stop`): over a parent
`ba` with `start < stop ≤ ba.length`, writing a replacement of length exactly
`stop - start` across the view's full range succeeds and the parent becomes
`take start ++ v ++ drop stop` — the bytes in `[start, stop)` equal the
replacement, every byte outside is unchanged, and the length is unchanged. -/
theorem bytearray_ptr_full_write_spec (ba v : List Nat) (a b : Nat)
    (hab : a < b) (hb : b ≤ ba.length) (hv : v.length = b - a) :
    (ByteArrayPtr.mk ba a b).setitem (.slc none none) (.seq v) =
        (none, ba.take a ++ v ++ ba.drop b)
  ∧ (ba.take a ++ v ++ ba.drop b).length = ba.length
  ∧ (ba.take a ++ v ++ ba.drop b).take a = ba.take a
  ∧ (ba.take a ++ v ++ ba.drop b).drop b = ba.drop b
  ∧ pyGetSlice (ba.take a ++ v ++ ba.drop b) (a : Int) (b : Int) = v := by
  have hta : (ba.take a).length = a := by
    rw [List.length_take]
    omega
  have htav : (ba.take a ++ v).length = b := by
    rw [List.length_append]
    omega
  have hpylen : (ByteArrayPtr.mk ba (a : Int) (b : Int)).pyLen = b - a := by
    show (pyGetSlice ba (a : Int) (b : Int)).length = b - a
    rw [pyGetSlice_eq _ _ _ (by omega) (by omega)]
    simp only [List.length_drop, List.length_take, Int.toNat_ofNat]
    omega
  have hnorm : ∀ (len : Nat) (i : Int), 0 ≤ i → pyNormIdx len i = i := by
    intro len i hi
    unfold pyNormIdx
    rw [if_neg (by omega)]
  have hrange : (ByteArrayPtr.mk ba (a : Int) (b : Int)).setitemRange none none =
      .ok ((a : Int), (b : Int)) := by
    simp only [ByteArrayPtr.setitemRange, hpylen, hnorm _ 0 le_rfl,
      hnorm _ ((b - a : Nat) : Int) (by omega)]
    rw [if_neg (by omega : ¬((0 : Int) ≥ ((b - a : Nat) : Int)))]
    have h1 : (0 : Int) + (a : Int) = (a : Int) := by omega
    have h2 : min (((b - a : Nat) : Int) + (a : Int)) ((b : Int)) = (b : Int) := by
      omega
    rw [h1, h2]
  have hget : pyGetSlice ba (a : Int) (b : Int) = (ba.take b).drop a := by
    rw [pyGetSlice_eq _ _ _ (by omega) (by omega)]
    simp
  have hgetlen : (pyGetSlice ba (a : Int) (b : Int)).length = v.length := by
    rw [hget]
    simp only [List.length_drop, List.length_take]
    omega
  have hset : pySetSlice ba (a : Int) (b : Int) v = ba.take a ++ v ++ ba.drop b := by
    rw [pySetSlice_eq _ _ _ _ (by omega) (by omega) (by omega)]
    simp
  have hnewlen : (ba.take a ++ v ++ ba.drop b).length = ba.length := by
    simp only [List.length_append, List.length_take, List.length_drop]
    omega
  have htake_b : (ba.take a ++ v ++ ba.drop b).take b = ba.take a ++ v := by
    rw [List.take_append_eq_append_take, htav, Nat.sub_self,
      List.take_zero, List.append_nil, List.take_of_length_le (le_of_eq htav)]
  refine ⟨?_, hnewlen, ?_, ?_, ?_⟩
  · simp only [ByteArrayPtr.setitem, hrange]
    rw [if_neg (by omega : ¬(pyGetSlice ba (a : Int) (b : Int)).length ≠ v.length)]
    rw [hset, if_neg (by omega : ¬(ba.take a ++ v ++ ba.drop b).length ≠ ba.length)]
  · rw [List.take_append_eq_append_take, List.take_append_eq_append_take, hta,
      htav, Nat.sub_self, show a - b = 0 by omega, List.take_zero, List.take_zero,
      List.append_nil, List.append_nil, List.take_of_length_le (le_of_eq hta)]
  · rw [List.drop_append_eq_append_drop, htav, Nat.sub_self,
      List.drop_zero, List.drop_eq_nil_of_le (le_of_eq htav), List.nil_append]
  · rw [pyGetSlice_eq _ _ _ (by omega) (by omega)]
    simp only [Int.toNat_ofNat]
    rw [htake_b, List.drop_append_eq_append_drop, hta, Nat.sub_self,
      List.drop_zero, List.drop_eq_nil_of_le (le_of_eq hta), List.nil_append]

/-- Witness for amended C5, the spec's own example: a view `[2,5)` over a
10-byte buffer, written across its full range with a 3-byte replacement,
succeeds and mutates exactly bytes `[2,5)`. -/
theorem bytearray_ptr_full_write_spec_witness :
    (ByteArrayPtr.mk (List.replicate 10 0) 2 5).setitem (.slc none none)
        (.seq [9, 9, 9]) =
      (none, (List.replicate 10 0).take 2 ++ [9, 9, 9] ++
        (List.replicate 10 0).drop 5) :=
  (bytearray_ptr_full_write_spec (List.replicate 10 0) [9, 9, 9] 2 5
    (by decide) (by decide) (by decide)).1

/-- Helper: taking exactly the left part's length off an append yields the left
part. -/
theorem take_append_length {α : Type} (X Y : List α) (n : Nat) (h : X.length = n) :
    (X ++ Y).take n = X := by
  rw [List.take_append_eq_append_take, h, Nat.sub_self, List.take_zero,
    List.append_nil, List.take_of_length_le (le_of_eq h)]

/-- Helper: dropping exactly the left part's length off an append yields the
right part. -/
theorem drop_append_length {α : Type} (X Y : List α) (n : Nat) (h : X.length = n) :
    (X ++ Y).drop n = Y := by
  rw [List.drop_append_eq_append_drop, h, Nat.sub_self, List.drop_zero,
    List.drop_eq_nil_of_le (le_of_eq h), List.nil_append]

/-- Helper: the little-endian 4-byte round trip. -/
theorem u32dec_u32le (x : Nat) (hx : x < 2 ^ 32) : u32dec (u32le x) = x := by
  simp only [u32dec, u32le, List.foldr_cons, List.foldr_nil]
  omega

/-- C8: `ucred` round-trips pid/uid/gid (for u32 values), lays the three fields
out as consecutive 4-byte little-endian integers at offsets 0, 4, 8 in pid,
uid, gid order in a 12-byte buffer, and a default-constructed `ucred` is all
zero. -/
theorem ucred_roundtrip (p u g : Nat) (hp : p < 2 ^ 32) (hu : u < 2 ^ 32)
    (hg : g < 2 ^ 32) :
    ucred.pid (ucred.init p u g) = p
  ∧ ucred.uid (ucred.init p u g) = u
  ∧ ucred.gid (ucred.init p u g) = g
  ∧ ucred.init p u g = u32le p ++ u32le u ++ u32le g
  ∧ (ucred.init p u g).length = 12
  ∧ ucred.init 0 0 0 = List.replicate 12 0 := by
  have hl4 : ∀ x : Nat, (u32le x).length = 4 := fun _ => rfl
  have h0 : ucred.set_field (List.replicate 12 0) 0 p =
      u32le p ++ List.replicate 8 0 := by
    show pySetSlice (List.replicate 12 0) 0 4 (u32le p) = _
    rw [pySetSlice_eq (List.replicate 12 0) 0 4 (u32le p) (by norm_num)
      (by norm_num) (by simp)]
    simp [List.drop_replicate]
  have h1 : ucred.set_field (u32le p ++ List.replicate 8 0) 1 u =
      u32le p ++ u32le u ++ List.replicate 4 0 := by
    show pySetSlice (u32le p ++ List.replicate 8 0) 4 8 (u32le u) = _
    rw [pySetSlice_eq (u32le p ++ List.replicate 8 0) 4 8 (u32le u)
      (by norm_num) (by norm_num) (by simp [u32le])]
    have ht : (u32le p ++ List.replicate 8 0).take (4 : Int).toNat = u32le p :=
      take_append_length _ _ _ (hl4 p)
    have hd : (u32le p ++ List.replicate 8 0).drop (8 : Int).toNat =
        List.replicate 4 0 := by
      rw [show (8 : Int).toNat = 8 from rfl, List.drop_append_eq_append_drop,
        List.drop_eq_nil_of_le (by simp [u32le]), List.nil_append, hl4]
      simp [List.drop_replicate]
    rw [ht, hd]
  have h2 : ucred.set_field (u32le p ++ u32le u ++ List.replicate 4 0) 2 g =
      u32le p ++ u32le u ++ u32le g := by
    show pySetSlice (u32le p ++ u32le u ++ List.replicate 4 0) 8 12 (u32le g) = _
    rw [pySetSlice_eq (u32le p ++ u32le u ++ List.replicate 4 0) 8 12 (u32le g)
      (by norm_num) (by norm_num) (by simp [u32le])]
    have ht : (u32le p ++ u32le u ++ List.replicate 4 0).take (8 : Int).toNat =
        u32le p ++ u32le u :=
      take_append_length _ _ _ (by simp [u32le])
    have hd : (u32le p ++ u32le u ++ List.replicate 4 0).drop (12 : Int).toNat =
        [] :=
      List.drop_eq_nil_of_le (by simp [u32le])
    rw [ht, hd, List.append_nil]
  have hinit : ucred.init p u g = u32le p ++ u32le u ++ u32le g := by
    unfold ucred.init
    rw [show ucred.SIZEOF = 12 from rfl, h0, h1, h2]
  refine ⟨?_, ?_, ?_, hinit, ?_, by decide⟩
  · show ucred.get_field (ucred.init p u g) 0 = p
    rw [hinit]
    show u32dec (pyGetSlice (u32le p ++ u32le u ++ u32le g) 0 4) = p
    rw [pyGetSlice_eq _ _ _ (by norm_num) (by norm_num),
      show (0 : Int).toNat = 0 from rfl, show (4 : Int).toNat = 4 from rfl,
      List.drop_zero, List.append_assoc,
      take_append_length _ _ _ (hl4 p), u32dec_u32le p hp]
  · show ucred.get_field (ucred.init p u g) 1 = u
    rw [hinit]
    show u32dec (pyGetSlice (u32le p ++ u32le u ++ u32le g) 4 8) = u
    rw [pyGetSlice_eq _ _ _ (by norm_num) (by norm_num),
      show (4 : Int).toNat = 4 from rfl, show (8 : Int).toNat = 8 from rfl,
      take_append_length _ _ _ (by simp [u32le]),
      drop_append_length _ _ _ (hl4 p), u32dec_u32le u hu]
  · show ucred.get_field (ucred.init p u g) 2 = g
    rw [hinit]
    show u32dec (pyGetSlice (u32le p ++ u32le u ++ u32le g) 8 12) = g
    rw [pyGetSlice_eq _ _ _ (by norm_num) (by norm_num),
      show (8 : Int).toNat = 8 from rfl, show (12 : Int).toNat = 12 from rfl,
      List.take_of_length_le (by simp [u32le]),
      drop_append_length _ _ _ (by simp [u32le]), u32dec_u32le g hg]
  · rw [hinit]
    simp [u32le]

/-- Witness for C8 at the spec's example values: pid=100, uid=200, gid=300
read back exactly. -/
theorem ucred_roundtrip_witness :
    ucred.pid (ucred.init 100 200 300) = 100
  ∧ ucred.uid (ucred.init 100 200 300) = 200
  ∧ ucred.gid (ucred.init 100 200 300) = 300 := by
  have h := ucred_roundtrip 100 200 300 (by norm_num) (by norm_num) (by norm_num)
  exact ⟨h.1, h.2.1, h.2.2.1⟩

/-- Helper: a nonnegative slice bound is unchanged by the negative-index
adjustment. -/
theorem pyNormIdx_nonneg (len : Nat) (i : Int) (h : 0 ≤ i) : pyNormIdx len i = i := by
  unfold pyNormIdx
  rw [if_neg (by omega)]

/-- Helper: a field's start offset plus its width stays within the signature's
total size. -/
theorem take_sum_add_getD_le (sig : List Nat) (i : Nat) (h : i < sig.length) :
    (sig.take i).sum + sig.getD i 0 ≤ sig.sum := by
  induction sig generalizing i with
  | nil => simp at h
  | cons w rest ih =>
    cases i with
    | zero =>
      simp only [List.take_zero, List.sum_nil, List.getD_cons_zero,
        List.sum_cons, Nat.zero_add]
      omega
    | succ j =>
      simp only [List.take_succ_cons, List.sum_cons, List.getD_cons_succ]
      have := ih j (by simpa using h)
      omega

/-- Helper: `_get_slicers` on a valid index yields the field's half-open byte
range. -/
theorem get_slicers_ok (sig : List Nat) (i : Nat) (h : i < sig.length) :
    get_slicers sig i = .ok ((((sig.take i).sum : Nat) : Int),
      (((sig.take i).sum : Nat) : Int) + ((sig.getD i 0 : Nat) : Int)) := by
  unfold get_slicers
  rcases Nat.eq_zero_or_pos i with h0 | h0
  · subst h0
    rw [if_pos rfl]
    cases sig with
    | nil => simp at h
    | cons w rest => simp
  · rw [if_neg (by omega), if_neg (by omega)]

/-- Helper: on a full view over `ba`, a slice write targeting `[A, A+W)` with
`0 < W`, `A + W ≤ len` and a replacement of length `≠ W` raises the
length-mismatch `TypeError` with the parent untouched. -/
theorem setitem_natRange_typeError (ba v : List Nat) (A W : Nat)
    (hw : 0 < W) (hle : A + W ≤ ba.length) (hmm : v.length ≠ W) :
    (ByteArrayPtr.mk ba 0 (ba.length : Int)).setitem
        (.slc (some (A : Int)) (some ((A : Int) + (W : Int)))) (.seq v) =
      (some PyErr.typeError, ba) := by
  have hpl : (ByteArrayPtr.mk ba 0 (ba.length : Int)).pyLen = ba.length := by
    show (pyGetSlice ba 0 (ba.length : Int)).length = ba.length
    rw [pyGetSlice_eq _ _ _ le_rfl (by omega)]
    simp
  have hrange : (ByteArrayPtr.mk ba 0 (ba.length : Int)).setitemRange
      (some (A : Int)) (some ((A : Int) + (W : Int))) =
      .ok ((A : Int), (A : Int) + (W : Int)) := by
    simp only [ByteArrayPtr.setitemRange, hpl]
    rw [show (if (A : Int) = 0 then (0 : Int) else (A : Int)) = (A : Int) from
        by split <;> omega]
    rw [pyNormIdx_nonneg _ _ (by omega)]
    rw [if_neg (by omega : ¬((A : Int) ≥ (ba.length : Int)))]
    rw [show (if (A : Int) + (W : Int) = 0 then (A : Int)
        else (A : Int) + (W : Int)) = (A : Int) + (W : Int) from
        by split <;> omega]
    rw [pyNormIdx_nonneg _ _ (by omega)]
    show Except.ok ((A : Int) + 0,
      min ((A : Int) + (W : Int) + 0) ((ba.length : Nat) : Int)) = _
    rw [Int.add_zero, Int.add_zero, min_eq_left (by omega)]
  have hglen : (pyGetSlice ba (A : Int) ((A : Int) + (W : Int))).length = W := by
    rw [pyGetSlice_eq _ _ _ (by omega) (by omega)]
    simp only [List.length_drop, List.length_take]
    omega
  exact setitem_slc_typeError _ _ _ v _ _ hrange
    (show (pyGetSlice ba (A : Int) ((A : Int) + (W : Int))).length ≠ v.length
      by omega)

/-- C9 counterexample: a `StructNoPointers` field write through a *plain*
`bytearray` backing buffer (as `ucred` uses) with a mismatched length does not
fail — Python bytearray slice assignment silently resizes. Writing the 1-byte
slice `[1]` into the 4-byte field 0 of a 12-byte buffer succeeds and leaves a
9-byte buffer. -/
theorem struct_field_write_plain_resizes :
    StructNoPointers.writeField [4, 4, 4] (List.replicate 12 0) 0 [1] =
      .ok (1 :: List.replicate 8 0)
  ∧ (1 :: List.replicate 8 0 : List Nat).length = 9 :=
  ⟨rfl, rfl⟩

/-- C9 (amended: the length guard exists only when the struct's backing buffer
is a `bytearray_ptr` bounded view; a plain-bytearray backing silently
resizes): through a full `bytearray_ptr` view over a buffer of the signature's
total size, writing field `i` with a slice whose length differs from
`signature[i]` raises the length-mismatch `TypeError` and the buffer is
unchanged. -/
theorem struct_field_write_mismatch_spec (sig ba v : List Nat) (i : Nat)
    (hi : i < sig.length) (hwpos : 0 < sig.getD i 0)
    (hsum : sig.sum = ba.length) (hmm : v.length ≠ sig.getD i 0) :
    StructNoPointers.writeFieldPtr sig (ByteArrayPtr.mk ba 0 (ba.length : Int))
        i v = (some PyErr.typeError, ba) := by
  have hAW : (sig.take i).sum + sig.getD i 0 ≤ sig.sum :=
    take_sum_add_getD_le sig i hi
  have hgs := get_slicers_ok sig i hi
  unfold StructNoPointers.writeFieldPtr
  rw [hgs]
  exact setitem_natRange_typeError ba v ((sig.take i).sum) (sig.getD i 0)
    hwpos (by omega) hmm

/-- Witness for amended C9: writing a 1-byte slice into the 4-byte field 0 of
a view-backed 12-byte `ucred`-signature struct raises `TypeError` and leaves
the buffer unchanged. -/
theorem struct_field_write_mismatch_spec_witness :
    StructNoPointers.writeFieldPtr [4, 4, 4]
        (ByteArrayPtr.mk (List.replicate 12 0) 0 12) 0 [1] =
      (some PyErr.typeError, List.replicate 12 0) :=
  struct_field_write_mismatch_spec [4, 4, 4] (List.replicate 12 0) [1] 0
    (by decide) (by decide) (by decide) (by decide)

/-- C7 (code bug): `new_pointer` never returns a token — on every call, the
first loop iteration's membership test `candidate_ba not in self.pointers`
hashes the bytearray candidate and raises
`TypeError: unhashable type: 'bytearray'` regardless of the drawn integer or
the table's contents (dict keys are hashed even on an empty dict); evaluated
concretely on a fresh two-slot structure with first draw 5. -/
theorem new_pointer_raises :
    (∀ (s : StructWithPointers) (d : Nat) (rest : List Nat),
      s.new_pointer (d :: rest) = some (.error .typeError))
  ∧ (StructWithPointers.init 2).new_pointer [5] = some (.error .typeError) :=
  ⟨fun _ _ _ => rfl, rfl⟩

end Libnl
